import Mathlib

/-!
Verification of the LowkeyType typing trainer (src/LowkeyType.c).

Characters and key codes are modelled as natural-number byte values (the C
`char` / `getch` integer values); `0` is the string terminator.  Floating-point
quantities are modelled as exact rationals; where a division's zero denominator
matters it is made observable through `Option` (`fdiv`).
-/

namespace LowkeyType

/-- User record (struct User, LowkeyType.c lines 78-87). -/
structure User where
  bestWPM : Rat
  bestAccuracy : Rat
  testsCompleted : Int
  enduranceHighScore : Int
  averageAccuracy : Rat
  totalCharsTyped : Int
  totalCorrectChars : Int

/-- Result snapshot (struct TypingResult, lines 90-100); the fields consumed by
the callers modelled here. -/
structure TypingResult where
  totalChars : Int
  correctChars : Int
  accuracy : Rat
  wpm : Rat
  timeTaken : Rat

/-- Character-compare loop of calculateAccuracy (lines 475-481): running
(correct, mistyped) counts over indices below `minLen`. -/
def calcLoop (target typed : List Nat) (minLen : Nat) : Nat × Nat :=
  (List.range minLen).foldl
    (fun cm i =>
      if typed.getD i 0 = target.getD i 0 then (cm.1 + 1, cm.2) else (cm.1, cm.2 + 1))
    (0, 0)

/-- Output record of calculateAccuracy: the four counts written through the out
parameters plus the returned accuracy. -/
structure AccStats where
  correct : Nat
  mistyped : Nat
  missed : Nat
  extra : Nat
  accuracy : Rat

/-- calculateAccuracy (lines 459-513), translated statement by statement:
character compare over the shorter length, missed/extra from the length
difference, accuracy from the error total with the two edge-case overrides. -/
def calculateAccuracy (target typed : List Nat) : AccStats :=
  let targetLen := target.length
  let typedLen := typed.length
  let minLen := if targetLen < typedLen then targetLen else typedLen
  let cm := calcLoop target typed minLen
  let missedChars := if typedLen < targetLen then targetLen - typedLen else 0
  let extraChars := if typedLen > targetLen then typedLen - targetLen else 0
  let totalErrors := cm.2 + missedChars + extraChars
  let acc0 : Rat := 100 * (1 - (totalErrors : Rat) / (targetLen : Rat))
  let acc1 : Rat := if targetLen = 0 then 0 else acc0
  let acc2 : Rat := if acc1 < 0 then 0 else acc1
  { correct := cm.1, mistyped := cm.2, missed := missedChars, extra := extraChars,
    accuracy := acc2 }

/-- Spec-side count of correct positions: `i < min(len target, len typed)` with
`typed[i] = target[i]`. -/
def specCorrect (target typed : List Nat) : Nat :=
  (List.range (min target.length typed.length)).countP
    (fun i => typed.getD i 0 == target.getD i 0)

/-- Spec-side count of mistyped positions: `i < min(len target, len typed)` with
`typed[i] ≠ target[i]`. -/
def specMistyped (target typed : List Nat) : Nat :=
  (List.range (min target.length typed.length)).countP
    (fun i => !(typed.getD i 0 == target.getD i 0))

/-- Spec-side missed count: the shortfall when typed is shorter than target. -/
def specMissed (target typed : List Nat) : Nat := target.length - typed.length

/-- Spec-side extra count: the excess when typed is longer than target. -/
def specExtra (target typed : List Nat) : Nat := typed.length - target.length

/-- Spec-side accuracy: `100 * (1 - totalErrors/len(target))` clamped below at
0, and defined as 0 for an empty target. -/
def specAccuracy (target typed : List Nat) : Rat :=
  if target.length = 0 then 0
  else
    max 0 (100 * (1 -
      ((specMistyped target typed + specMissed target typed + specExtra target typed : Nat) : Rat) /
        (target.length : Rat)))

/-- Mutable state of one typingTest invocation (lines 754-763).  `mask` models
the mistakeFlags array as the list of flagged positions; `beyond` is a ghost
counter of executions of the render branch classifying positions at or past the
target length (lines 805-808 and 846-850). -/
structure SessionState where
  typed : List Nat
  pos : Nat
  keystrokeCount : Nat
  errorKeystrokeCount : Nat
  mask : List Nat
  beyond : Nat

/-- Initial session state: empty buffer, cursor 0, counters 0, no flags. -/
def initSession : SessionState := ⟨[], 0, 0, 0, [], 0⟩

/-- typedText[i]: the C buffer is zero-filled past the current length, so a read
past the end yields the terminator 0. -/
def typedAt (typed : List Nat) (i : Nat) : Nat := typed.getD i 0

/-- One iteration of the per-event render loop (lines 788-811 and 830-853) at
index `i`, acting on (errorKeystrokeCount, mistake mask, ghost beyond count). -/
def scanStep (text typed : List Nat) (acc : Nat × List Nat × Nat) (i : Nat) :
    Nat × List Nat × Nat :=
  if i < text.length then
    if typedAt typed i = text.getD i 0 then acc
    else if i ∈ acc.2.1 then acc
    else (acc.1 + 1, i :: acc.2.1, acc.2.2)
  else (acc.1 + 1, acc.2.1, acc.2.2 + 1)

/-- Render pass over indices 0..upto inclusive (the C loops run
`for i = 0; i <= pos`). -/
def renderScan (text typed : List Nat) (upto : Nat) (acc : Nat × List Nat × Nat) :
    Nat × List Nat × Nat :=
  (List.range (upto + 1)).foldl (scanStep text typed) acc

/-- One key event of the session-loop body (lines 766-861), the ESC check
excepted: the driver `runLoop` performs it before calling here.  Backspace
(8 or 127) with a nonzero cursor truncates and rescans; a printable character
(isprint: 32..126) with room in the buffer appends, counts the keystroke and
rescans; anything else is ignored. -/
def stepKey (text : List Nat) (s : SessionState) (ch : Nat) : SessionState :=
  if (ch = 8 ∨ ch = 127) ∧ 0 < s.pos then
    let pos := s.pos - 1
    let typed := s.typed.take pos
    let r := renderScan text typed pos (s.errorKeystrokeCount, s.mask, s.beyond)
    { typed := typed, pos := pos, keystrokeCount := s.keystrokeCount,
      errorKeystrokeCount := r.1, mask := r.2.1, beyond := r.2.2 }
  else if (32 ≤ ch ∧ ch ≤ 126) ∧ s.pos < 999 then
    let typed := s.typed.take s.pos ++ [ch]
    let r := renderScan text typed s.pos (s.errorKeystrokeCount, s.mask, s.beyond)
    { typed := typed, pos := s.pos + 1, keystrokeCount := s.keystrokeCount + 1,
      errorKeystrokeCount := r.1, mask := r.2.1, beyond := r.2.2 }
  else s

/-- Terminal observations of the session loop: cancelled returns no state (the
C function returns 0 without writing the result), finished carries the state at
exit, outOfInput marks a still-running session whose scripted keys ran out. -/
inductive LoopResult where
  | cancelled : LoopResult
  | finished : SessionState → LoopResult
  | outOfInput : SessionState → LoopResult

/-- While-loop of typingTest (line 765): the condition `pos < textLength` is
checked before each key read; ESC (27) yields CANCELLED at once (768-771). -/
def runLoop (text : List Nat) (s : SessionState) : List Nat → LoopResult
  | [] => if s.pos < text.length then .outOfInput s else .finished s
  | ch :: rest =>
    if s.pos < text.length then
      if ch = 27 then .cancelled else runLoop text (stepKey text s ch) rest
    else .finished s

/-- Keystroke accuracy at session end (line 869):
`(totalKeystrokes == 0) ? 0 : 100 * correctChars / totalKeystrokes`. -/
def keystrokeAccuracy (ks ek : Nat) : Rat :=
  if ks = 0 then 0 else 100 * ((((ks : Int) - (ek : Int)) : Int) : Rat) / (ks : Rat)

/-- Division with an observable zero denominator: `none` marks a division the
code performs with denominator 0 (a float division by zero, which has no
defined numeric fallback). -/
def fdiv (a b : Rat) : Option Rat := if b = 0 then none else some (a / b)

/-- WPM computation at session end (line 870):
`((float)pos / 5) / (timeTaken / 60.0f)`, with its division made observable. -/
def wpmComputation (pos : Nat) (timeTaken : Rat) : Option Rat :=
  fdiv ((pos : Rat) / 5) (timeTaken / 60)

/-- processTypingResults (lines 992-1042) specialised to count = 1, the only
call shape (rawSpeedMode passes a one-element array). -/
def processTypingResults1 (r : TypingResult) (u : User) : User :=
  let avgWPM := r.wpm
  let avgAccuracy := r.accuracy
  { u with
    bestWPM := if avgWPM > u.bestWPM then avgWPM else u.bestWPM
    bestAccuracy := if avgAccuracy > u.bestAccuracy then avgAccuracy else u.bestAccuracy
    totalCharsTyped := u.totalCharsTyped + r.totalChars
    totalCorrectChars := u.totalCorrectChars + r.correctChars
    averageAccuracy := ((u.totalCorrectChars + r.correctChars : Int) : Rat) /
      ((u.totalCharsTyped + r.totalChars : Int) : Rat) * 100
    testsCompleted := u.testsCompleted + 1 }

/-- Tail of rawSpeedMode (lines 731-737): the return status of typingTest is
discarded and processTypingResults runs unconditionally; on cancellation the
local TypingResult was never written, which `garbage` models. -/
def rawSpeedAfterTest (wasCancelled : Bool) (written garbage : TypingResult)
    (u : User) : User :=
  processTypingResults1 (if wasCancelled then garbage else written) u

/-- Endurance-mode run state (locals of enduranceMode, lines 552-557). -/
structure EnduranceState where
  rounds : Nat
  totalWords : Nat
  acc : Rat
  wpm : Rat
  cancelled : Bool

/-- Initial endurance state (lines 553-557): accuracy and WPM start at 100. -/
def initEndurance : EnduranceState := ⟨0, 0, 100, 100, false⟩

/-- Round outcome delivered by typingTest inside endurance mode: `none` for a
cancelled round, `some (accuracy, wpm)` (keystroke-based figures) otherwise. -/
abbrev RoundOutcome := Option (Rat × Rat)

/-- While-loop of enduranceMode (lines 560-624) over a script of round
outcomes: loop while accuracy ≥ 85, WPM ≥ 30 and not cancelled; a finished
round installs its figures and adds 10 words and one round. -/
def enduranceLoop (s : EnduranceState) : List RoundOutcome → EnduranceState
  | [] => s
  | o :: rest =>
    if 85 ≤ s.acc ∧ 30 ≤ s.wpm ∧ s.cancelled = false then
      match o with
      | none => enduranceLoop { s with cancelled := true } rest
      | some aw =>
        enduranceLoop
          { s with
            acc := aw.1
            wpm := aw.2
            totalWords := s.totalWords + 10
            rounds := s.rounds + 1 } rest
    else s

/-- Profile update on endurance exit (lines 634-641): raise the endurance high
score to totalWords when larger, add roundsCompleted to testsCompleted. -/
def enduranceFinish (u : User) (s : EnduranceState) : User :=
  { u with
    enduranceHighScore :=
      if (s.totalWords : Int) > u.enduranceHighScore then (s.totalWords : Int)
      else u.enduranceHighScore
    testsCompleted := u.testsCompleted + (s.rounds : Int) }

/-- Whole endurance session: run the loop from the initial state, fold the
summary into the profile. -/
def enduranceRun (u : User) (outs : List RoundOutcome) : User :=
  enduranceFinish u (enduranceLoop initEndurance outs)

/-- Session-loop invariant: the buffer length tracks the cursor, the cursor
stays within the target, and the beyond-target render branch never ran. -/
def SInv (text : List Nat) (s : SessionState) : Prop :=
  s.typed.length = s.pos ∧ s.pos ≤ text.length ∧ s.beyond = 0

theorem getD_take_of_lt {α : Type} (l : List α) (d : α) {n i : Nat} (h : i < n) :
    (l.take n).getD i d = l.getD i d := by
  rw [List.getD_eq_getElem?_getD, List.getD_eq_getElem?_getD, List.getElem?_take, if_pos h]

theorem scanStep_mask_mono (text typed : List Nat) (acc : Nat × List Nat × Nat)
    (i p : Nat) (hp : p ∈ acc.2.1) : p ∈ (scanStep text typed acc i).2.1 := by
  unfold scanStep
  split_ifs <;> simp_all

theorem scanFold_mask_mono (text typed : List Nat) (l : List Nat)
    (acc : Nat × List Nat × Nat) (p : Nat) (hp : p ∈ acc.2.1) :
    p ∈ (l.foldl (scanStep text typed) acc).2.1 := by
  induction l generalizing acc with
  | nil => exact hp
  | cons a t ih => exact ih _ (scanStep_mask_mono text typed acc a p hp)

theorem scanStep_ek_mono (text typed : List Nat) (acc : Nat × List Nat × Nat)
    (i : Nat) : acc.1 ≤ (scanStep text typed acc i).1 := by
  unfold scanStep
  split_ifs <;> simp

theorem scanFold_ek_mono (text typed : List Nat) (l : List Nat)
    (acc : Nat × List Nat × Nat) : acc.1 ≤ (l.foldl (scanStep text typed) acc).1 := by
  induction l generalizing acc with
  | nil => exact le_refl _
  | cons a t ih => exact le_trans (scanStep_ek_mono text typed acc a) (ih _)

theorem scanFold_fix (text typed : List Nat) (l : List Nat)
    (acc : Nat × List Nat × Nat)
    (h : ∀ i ∈ l, i < text.length ∧ (typedAt typed i ≠ text.getD i 0 → i ∈ acc.2.1)) :
    l.foldl (scanStep text typed) acc = acc := by
  induction l with
  | nil => rfl
  | cons a t ih =>
    have ha := h a (List.mem_cons_self a t)
    have hstep : scanStep text typed acc a = acc := by
      unfold scanStep
      rw [if_pos ha.1]
      by_cases heq : typedAt typed a = text.getD a 0
      · rw [if_pos heq]
      · rw [if_neg heq, if_pos (ha.2 heq)]
    rw [List.foldl_cons, hstep]
    exact ih fun i hi => h i (List.mem_cons_of_mem a hi)

theorem scanFold_beyond_const (text typed : List Nat) (l : List Nat)
    (acc : Nat × List Nat × Nat) (h : ∀ i ∈ l, i < text.length) :
    (l.foldl (scanStep text typed) acc).2.2 = acc.2.2 := by
  induction l generalizing acc with
  | nil => rfl
  | cons a t ih =>
    have hstep : (scanStep text typed acc a).2.2 = acc.2.2 := by
      unfold scanStep
      rw [if_pos (h a (List.mem_cons_self a t))]
      split_ifs <;> rfl
    rw [List.foldl_cons]
    rw [ih _ fun i hi => h i (List.mem_cons_of_mem a hi), hstep]

/-- Under the invariant that every wrong position strictly below `upto` is
already flagged, the render pass reduces to its final iteration at `upto`. -/
theorem renderScan_eq_last (text typed : List Nat) (upto : Nat)
    (acc : Nat × List Nat × Nat)
    (h : ∀ i < upto, i < text.length ∧ (typedAt typed i ≠ text.getD i 0 → i ∈ acc.2.1)) :
    renderScan text typed upto acc = scanStep text typed acc upto := by
  unfold renderScan
  rw [List.range_succ, List.foldl_append,
    scanFold_fix text typed _ acc fun i hi => h i (List.mem_range.mp hi)]
  rfl

/-- C8: throughout one Live Session Loop invocation the mistake mask only
grows: after any event (printable character, backspace, or ignored key) every
position already flagged in the mistakeFlags array remains flagged; the loop
body contains no code path that clears a flag. -/
theorem C8_mistakeMask_monotone (text : List Nat) (s : SessionState) (ch p : Nat)
    (hp : p ∈ s.mask) : p ∈ (stepKey text s ch).mask := by
  unfold stepKey
  split_ifs
  · exact scanFold_mask_mono _ _ _ _ p hp
  · exact scanFold_mask_mono _ _ _ _ p hp
  · exact hp

/-- Witness for C8 at a concrete input: position 0 flagged before a printable
keystroke stays flagged after it. -/
theorem C8_mistakeMask_monotone_witness :
    0 ∈ (stepKey [97] ⟨[], 0, 0, 0, [0], 0⟩ 53).mask :=
  C8_mistakeMask_monotone [97] ⟨[], 0, 0, 0, [0], 0⟩ 53 0 (by decide)

/-- C9: a backspace event (key 8 or 127) while the cursor is positive
decrements the cursor by one and truncates the typed buffer to the new cursor
length, and no event of any kind decreases keystrokeCount or
errorKeystrokeCount: both counters are monotonically non-decreasing. -/
theorem C9_backspace_truncates_counters_monotone (text : List Nat)
    (s : SessionState) (ch : Nat) :
    ((ch = 8 ∨ ch = 127) → 0 < s.pos →
      (stepKey text s ch).pos = s.pos - 1 ∧
      (stepKey text s ch).typed = s.typed.take (s.pos - 1)) ∧
    s.keystrokeCount ≤ (stepKey text s ch).keystrokeCount ∧
    s.errorKeystrokeCount ≤ (stepKey text s ch).errorKeystrokeCount := by
  unfold stepKey
  split_ifs with h1 h2
  · refine ⟨fun _ _ => ⟨rfl, rfl⟩, le_refl _, ?_⟩
    exact scanFold_ek_mono text _ _ (s.errorKeystrokeCount, s.mask, s.beyond)
  · refine ⟨fun hch hpos => absurd ⟨hch, hpos⟩ h1, Nat.le_succ _, ?_⟩
    exact scanFold_ek_mono text _ _ (s.errorKeystrokeCount, s.mask, s.beyond)
  · exact ⟨fun hch hpos => absurd ⟨hch, hpos⟩ h1, le_refl _, le_refl _⟩

/-- Witness for C9 at a concrete input: backspace with cursor 1 after one
correctly typed character. -/
theorem C9_backspace_truncates_counters_monotone_witness :
    (stepKey [97, 98] ⟨[97], 1, 1, 0, [], 0⟩ 8).pos = 1 - 1 ∧
    (stepKey [97, 98] ⟨[97], 1, 1, 0, [], 0⟩ 8).typed = [97].take (1 - 1) ∧
    (1 : Nat) ≤ (stepKey [97, 98] ⟨[97], 1, 1, 0, [], 0⟩ 8).keystrokeCount ∧
    (0 : Nat) ≤ (stepKey [97, 98] ⟨[97], 1, 1, 0, [], 0⟩ 8).errorKeystrokeCount := by
  have h := C9_backspace_truncates_counters_monotone [97, 98] ⟨[97], 1, 1, 0, [], 0⟩ 8
  have h1 := h.1 (Or.inl rfl) (by decide)
  exact ⟨h1.1, h1.2, h.2.1, h.2.2⟩

/-- C6: a backspace event that erases the character at position p (the new
cursor value) makes the re-render compare the string terminator 0 at p against
target[p] and classify p as incorrect, so if p was not already flagged the
backspace itself increments errorKeystrokeCount and flags p — even when the
erased character had been typed correctly.  Hypotheses: the buffer tracks the
cursor, the cursor is positive and within the target, every wrong position
below p is already flagged (true of every reachable state), and target[p] is a
real character (nonzero, as C strings guarantee). -/
theorem C6_backspace_marks_erased_position (text : List Nat) (s : SessionState)
    (hpos : 0 < s.pos) (hle : s.pos ≤ text.length)
    (hinv : ∀ i, i < s.pos - 1 → typedAt s.typed i ≠ text.getD i 0 → i ∈ s.mask)
    (htgt : text.getD (s.pos - 1) 0 ≠ 0) (hmask : s.pos - 1 ∉ s.mask) :
    (stepKey text s 8).errorKeystrokeCount = s.errorKeystrokeCount + 1 ∧
    s.pos - 1 ∈ (stepKey text s 8).mask := by
  have hbranch : ((8 : Nat) = 8 ∨ (8 : Nat) = 127) ∧ 0 < s.pos := ⟨Or.inl rfl, hpos⟩
  have hscan : renderScan text (s.typed.take (s.pos - 1)) (s.pos - 1)
      (s.errorKeystrokeCount, s.mask, s.beyond)
      = scanStep text (s.typed.take (s.pos - 1))
          (s.errorKeystrokeCount, s.mask, s.beyond) (s.pos - 1) := by
    apply renderScan_eq_last
    intro i hi
    refine ⟨by omega, fun hw => hinv i hi ?_⟩
    rwa [typedAt, getD_take_of_lt s.typed 0 hi] at hw
  have hterm : typedAt (s.typed.take (s.pos - 1)) (s.pos - 1) = 0 := by
    apply List.getD_eq_default
    rw [List.length_take]
    exact Nat.min_le_left _ _
  have hne : typedAt (s.typed.take (s.pos - 1)) (s.pos - 1) ≠ text.getD (s.pos - 1) 0 := by
    rw [hterm]
    exact fun h => htgt h.symm
  have hstep : scanStep text (s.typed.take (s.pos - 1))
      (s.errorKeystrokeCount, s.mask, s.beyond) (s.pos - 1)
      = (s.errorKeystrokeCount + 1, (s.pos - 1) :: s.mask, s.beyond) := by
    unfold scanStep
    rw [if_pos (show s.pos - 1 < text.length by omega), if_neg hne]
    dsimp only
    exact if_neg hmask
  unfold stepKey
  rw [if_pos hbranch]
  dsimp only
  rw [hscan, hstep]
  exact ⟨rfl, List.mem_cons_self _ _⟩

/-- Witness for C6 at a concrete input: target "ab", the user types a correct
'a' and then backspaces; the backspace alone raises the error count to 1 and
flags position 0. -/
theorem C6_backspace_marks_erased_position_witness :
    (stepKey [97, 98] ⟨[97], 1, 1, 0, [], 0⟩ 8).errorKeystrokeCount = 0 + 1 ∧
    (0 : Nat) ∈ (stepKey [97, 98] ⟨[97], 1, 1, 0, [], 0⟩ 8).mask :=
  C6_backspace_marks_erased_position [97, 98] ⟨[97], 1, 1, 0, [], 0⟩
    (by decide) (by decide)
    (fun i hi _ => absurd hi (Nat.not_lt_zero i))
    (by decide) (by decide)

/-- C2 (amended): errorKeystrokeCount obeys the once-per-position rule for
in-target positions just like the display classification: a freshly typed wrong
character at the cursor increments it exactly when the position is not yet
flagged, and leaves it unchanged when the position is already flagged — in
particular a wrong retype after a backspace at an already-flagged position does
not increment it.  Hypotheses: buffer tracks cursor, cursor within target,
printable character, room in the buffer, every wrong position below the cursor
already flagged (true of every reachable state), and the typed character
differs from the target character at the cursor. -/
theorem C2_wrong_keystroke_counted_once (text : List Nat) (s : SessionState)
    (c : Nat) (hlen : s.typed.length = s.pos) (hlt : s.pos < text.length)
    (hc1 : 32 ≤ c) (hc2 : c ≤ 126) (h999 : s.pos < 999)
    (hinv : ∀ i, i < s.pos → typedAt s.typed i ≠ text.getD i 0 → i ∈ s.mask)
    (hwrong : c ≠ text.getD s.pos 0) :
    (stepKey text s c).errorKeystrokeCount
      = s.errorKeystrokeCount + (if s.pos ∈ s.mask then 0 else 1) ∧
    (stepKey text s c).keystrokeCount = s.keystrokeCount + 1 := by
  have hnotbs : ¬((c = 8 ∨ c = 127) ∧ 0 < s.pos) := by
    rintro ⟨hc, -⟩
    rcases hc with h | h <;> omega
  have htake : s.typed.take s.pos = s.typed := by
    rw [← hlen, List.take_length]
  have hat : typedAt (s.typed.take s.pos ++ [c]) s.pos = c := by
    rw [typedAt, htake, List.getD_append_right s.typed [c] 0 s.pos (le_of_eq hlen),
      hlen]
    simp
  have hscan : renderScan text (s.typed.take s.pos ++ [c]) s.pos
      (s.errorKeystrokeCount, s.mask, s.beyond)
      = scanStep text (s.typed.take s.pos ++ [c])
          (s.errorKeystrokeCount, s.mask, s.beyond) s.pos := by
    apply renderScan_eq_last
    intro i hi
    refine ⟨by omega, fun hw => hinv i hi ?_⟩
    rwa [typedAt, htake, List.getD_append s.typed [c] 0 i (hlen ▸ hi), ← typedAt] at hw
  have hne : typedAt (s.typed.take s.pos ++ [c]) s.pos ≠ text.getD s.pos 0 := by
    rw [hat]
    exact hwrong
  have hstep : scanStep text (s.typed.take s.pos ++ [c])
      (s.errorKeystrokeCount, s.mask, s.beyond) s.pos
      = if s.pos ∈ s.mask then (s.errorKeystrokeCount, s.mask, s.beyond)
        else (s.errorKeystrokeCount + 1, s.pos :: s.mask, s.beyond) := by
    unfold scanStep
    rw [if_pos hlt, if_neg hne]
  unfold stepKey
  rw [if_neg hnotbs, if_pos ⟨⟨hc1, hc2⟩, h999⟩]
  dsimp only
  rw [hscan, hstep]
  by_cases hm : s.pos ∈ s.mask
  · rw [if_pos hm, if_pos hm]
    exact ⟨rfl, rfl⟩
  · rw [if_neg hm, if_neg hm]
    exact ⟨rfl, rfl⟩

/-- Witness for C2 (amended) at a concrete input: target "ab", state after the
user typed a wrong 'x' at position 0 and backspaced (position 0 flagged, error
count 1); retyping the wrong 'x' leaves the error count at 1. -/
theorem C2_wrong_keystroke_counted_once_witness :
    (stepKey [97, 98] ⟨[], 0, 1, 1, [0], 0⟩ 120).errorKeystrokeCount
      = 1 + (if (0 : Nat) ∈ [0] then 0 else 1) ∧
    (stepKey [97, 98] ⟨[], 0, 1, 1, [0], 0⟩ 120).keystrokeCount = 1 + 1 :=
  C2_wrong_keystroke_counted_once [97, 98] ⟨[], 0, 1, 1, [0], 0⟩ 120 rfl
    (by decide) (by decide) (by decide) (by decide)
    (fun i hi _ => absurd hi (Nat.not_lt_zero i)) (by decide)

/-- Counterexample to C2 as stated: target "ab"; the user types a wrong 'x' at
position 0 (error count becomes 1), backspaces, and freshly retypes the wrong
'x' at position 0 — the claim requires errorKeystrokeCount to increment on this
retype, but it stays at 1 because position 0 is already flagged. -/
theorem C2_retype_does_not_increment_counterexample :
    (stepKey [97, 98] initSession 120).errorKeystrokeCount = 1 ∧
    (stepKey [97, 98] (stepKey [97, 98] initSession 120) 8).pos = 0 ∧
    (120 : Nat) ≠ [97, 98].getD 0 0 ∧
    (stepKey [97, 98] (stepKey [97, 98] initSession 120) 8).errorKeystrokeCount = 1 ∧
    (stepKey [97, 98]
        (stepKey [97, 98] (stepKey [97, 98] initSession 120) 8) 120).errorKeystrokeCount
      = 1 := by
  refine ⟨by decide, by decide, by decide, by decide, by decide⟩

theorem stepKey_SInv (text : List Nat) (s : SessionState) (ch : Nat)
    (h : SInv text s) (hlt : s.pos < text.length) : SInv text (stepKey text s ch) := by
  obtain ⟨hlen, hle, hb⟩ := h
  unfold stepKey
  split_ifs with h1 h2
  · refine ⟨?_, by dsimp only; omega, ?_⟩
    · dsimp only
      rw [List.length_take]
      omega
    · show (renderScan text _ _ (s.errorKeystrokeCount, s.mask, s.beyond)).2.2 = 0
      unfold renderScan
      rw [scanFold_beyond_const]
      · exact hb
      · intro i hi
        have := List.mem_range.mp hi
        omega
  · refine ⟨?_, by dsimp only; omega, ?_⟩
    · dsimp only
      rw [List.length_append, List.length_take]
      simp
      omega
    · show (renderScan text _ _ (s.errorKeystrokeCount, s.mask, s.beyond)).2.2 = 0
      unfold renderScan
      rw [scanFold_beyond_const]
      · exact hb
      · intro i hi
        have := List.mem_range.mp hi
        omega
  · exact ⟨hlen, hle, hb⟩

theorem runLoop_SInv (text : List Nat) (keys : List Nat) (s : SessionState)
    (h : SInv text s) :
    (∀ s', runLoop text s keys = .finished s' → SInv text s' ∧ s'.pos = text.length) ∧
    (∀ s', runLoop text s keys = .outOfInput s' → SInv text s' ∧ s'.pos < text.length) := by
  induction keys generalizing s with
  | nil =>
    constructor
    · intro s' hs'
      unfold runLoop at hs'
      split_ifs at hs' with hcond
      cases hs'
      exact ⟨h, le_antisymm h.2.1 (not_lt.mp hcond)⟩
    · intro s' hs'
      unfold runLoop at hs'
      split_ifs at hs' with hcond
      cases hs'
      exact ⟨h, hcond⟩
  | cons ch rest ih =>
    constructor
    · intro s' hs'
      unfold runLoop at hs'
      split_ifs at hs' with hcond hesc
      · exact (ih (stepKey text s ch) (stepKey_SInv text s ch h hcond)).1 s' hs'
      · cases hs'
        exact ⟨h, le_antisymm h.2.1 (not_lt.mp hcond)⟩
    · intro s' hs'
      unfold runLoop at hs'
      split_ifs at hs' with hcond hesc
      exact (ih (stepKey text s ch) (stepKey_SInv text s ch h hcond)).2 s' hs'

/-- C10: started from the initial state, the session loop keeps the cursor
within 0..len(target) and the typed buffer exactly cursor-long, terminates in
Finished exactly when the cursor reaches len(target) (a key-exhausted run still
has cursor < len(target)), and the render branch classifying positions at or
beyond len(target) never executes (ghost counter `beyond` stays 0) — so no
extra character past the target can be entered in a live session. -/
theorem C10_cursor_bounded_finish_at_length (text keys : List Nat) :
    (∀ s', runLoop text initSession keys = .finished s' →
      s'.typed.length = s'.pos ∧ s'.pos = text.length ∧ s'.beyond = 0) ∧
    (∀ s', runLoop text initSession keys = .outOfInput s' →
      s'.typed.length = s'.pos ∧ s'.pos < text.length ∧ s'.beyond = 0) := by
  have h0 : SInv text initSession := ⟨rfl, Nat.zero_le _, rfl⟩
  have h := runLoop_SInv text keys initSession h0
  constructor
  · intro s' hs'
    obtain ⟨⟨ha, _, hc⟩, hd⟩ := h.1 s' hs'
    exact ⟨ha, hd, hc⟩
  · intro s' hs'
    obtain ⟨⟨ha, _, hc⟩, hd⟩ := h.2 s' hs'
    exact ⟨ha, hd, hc⟩

/-- Witness for C10 at a concrete input: target "a" typed with the single
correct key finishes with cursor 1 = len, buffer length 1, beyond count 0. -/
theorem C10_cursor_bounded_finish_at_length_witness :
    (stepKey [97] initSession 97).typed.length = (stepKey [97] initSession 97).pos ∧
    (stepKey [97] initSession 97).pos = 1 ∧
    (stepKey [97] initSession 97).beyond = 0 :=
  (C10_cursor_bounded_finish_at_length [97] [97]).1 (stepKey [97] initSession 97) rfl

/-- C1: the session loop does return immediately on ESC with no result
payload, but rawSpeedMode ignores that status and unconditionally feeds the
(unwritten) result to processTypingResults, so a cancelled Raw Speed session
still increments testsCompleted and folds indeterminate values into the
profile — contradicting the documented cancellation contract. -/
theorem C1_cancelled_session_rawSpeed_mutates_profile (u : User)
    (written garbage : TypingResult) :
    runLoop [97, 98] initSession [27] = .cancelled ∧
    (rawSpeedAfterTest true written garbage u).testsCompleted = u.testsCompleted + 1 ∧
    (rawSpeedAfterTest true written garbage u).totalCharsTyped
      = u.totalCharsTyped + garbage.totalChars ∧
    (rawSpeedAfterTest true written garbage u).totalCorrectChars
      = u.totalCorrectChars + garbage.correctChars :=
  ⟨rfl, rfl, rfl, rfl⟩

/-- C4: the Endurance Controller loops exactly while accuracy ≥ 85 and
WPM ≥ 30 and not cancelled, a finished round installs the round figures and
adds 10 words and 1 round, the exit update raises the endurance high score to
totalWords when larger and adds roundsCompleted to testsCompleted, and the
scripted accuracy sequence [95, 90, 80] (WPM fixed at 100) stops after the
third round with roundsCompleted = 3. -/
theorem C4_endurance_controller (su : EnduranceState) (outs0 : List RoundOutcome)
    (a w : Rat) (rest : List RoundOutcome) (u : User) :
    (¬(85 ≤ su.acc ∧ 30 ≤ su.wpm ∧ su.cancelled = false) →
      enduranceLoop su outs0 = su) ∧
    ((85 ≤ su.acc ∧ 30 ≤ su.wpm ∧ su.cancelled = false) →
      enduranceLoop su (some (a, w) :: rest)
        = enduranceLoop
            { su with
              acc := a
              wpm := w
              totalWords := su.totalWords + 10
              rounds := su.rounds + 1 } rest) ∧
    ((enduranceFinish u su).testsCompleted = u.testsCompleted + (su.rounds : Int) ∧
     (enduranceFinish u su).enduranceHighScore
       = max u.enduranceHighScore (su.totalWords : Int)) ∧
    ((enduranceLoop initEndurance
        [some (95, 100), some (90, 100), some (80, 100), some (99, 100)]).rounds = 3 ∧
     (enduranceLoop initEndurance
        [some (95, 100), some (90, 100), some (80, 100), some (99, 100)]).totalWords = 30 ∧
     (enduranceLoop initEndurance
        [some (95, 100), some (90, 100), some (80, 100), some (99, 100)]).acc = 80) := by
  refine ⟨?_, ?_, ⟨rfl, ?_⟩, by decide, by decide, by decide⟩
  · intro hcond
    cases outs0 with
    | nil => rfl
    | cons o rest' =>
      unfold enduranceLoop
      rw [if_neg hcond]
  · intro hcond
    simp only [enduranceLoop]
    rw [if_pos hcond]
  · unfold enduranceFinish
    dsimp only
    rcases lt_or_ge u.enduranceHighScore (su.totalWords : Int) with hlt | hge
    · rw [if_pos hlt, max_eq_right (le_of_lt hlt)]
    · rw [if_neg (not_lt.mpr hge), max_eq_left hge]

/-- Witness for C4 at concrete inputs: a below-threshold state is a fixed point
of the loop, and an above-threshold state consumes one scripted round. -/
theorem C4_endurance_controller_witness :
    enduranceLoop ⟨0, 0, 50, 100, false⟩ [some (95, 100)] = ⟨0, 0, 50, 100, false⟩ ∧
    enduranceLoop initEndurance [some (95, 100)]
      = enduranceLoop
          { initEndurance with
            acc := 95
            wpm := 100
            totalWords := initEndurance.totalWords + 10
            rounds := initEndurance.rounds + 1 } [] := by
  constructor
  · exact (C4_endurance_controller ⟨0, 0, 50, 100, false⟩ [some (95, 100)] 95 100 []
      ⟨0, 0, 0, 0, 0, 0, 0⟩).1 (by decide)
  · exact (C4_endurance_controller initEndurance [] 95 100 []
      ⟨0, 0, 0, 0, 0, 0, 0⟩).2.1 (by decide)

/-- C5 (amended): the session-end keystroke accuracy is guarded — it is 0 when
keystrokeCount = 0 and the quotient otherwise — and the scorer's accuracy is 0
for an empty target; but the WPM computation's elapsed-time denominator is NOT
guarded: it produces a defined value exactly when the elapsed time is nonzero,
and at elapsed time 0 the code divides by zero with no numeric fallback. -/
theorem C5_degenerate_guards (ks ek p : Nat) (typed : List Nat) (t : Rat) :
    keystrokeAccuracy 0 ek = 0 ∧
    (ks ≠ 0 → keystrokeAccuracy ks ek
      = 100 * ((((ks : Int) - (ek : Int)) : Int) : Rat) / (ks : Rat)) ∧
    (calculateAccuracy [] typed).accuracy = 0 ∧
    (wpmComputation p t = none ↔ t = 0) := by
  refine ⟨if_pos rfl, fun h => if_neg h, ?_, ?_⟩
  · simp [calculateAccuracy]
  · unfold wpmComputation fdiv
    by_cases ht : t = 0
    · rw [if_pos (by rw [ht]; norm_num)]
      simp [ht]
    · rw [if_neg (by intro h0; exact ht (by field_simp at h0; exact h0))]
      simp [ht]

/-- Witness for C5 (amended) at concrete inputs. -/
theorem C5_degenerate_guards_witness :
    keystrokeAccuracy 0 7 = 0 ∧
    keystrokeAccuracy 4 1 = 100 * ((((4 : Int) - ((1 : Nat) : Int)) : Int) : Rat) / ((4 : Nat) : Rat) ∧
    (calculateAccuracy [] [5]).accuracy = 0 ∧
    (wpmComputation 5 2 = none ↔ (2 : Rat) = 0) := by
  have h := C5_degenerate_guards 4 1 5 [5] 2
  exact ⟨(C5_degenerate_guards 4 7 5 [5] 2).1, h.2.1 (by omega), h.2.2.1, h.2.2.2⟩

/-- Counterexample to C5 as stated: at elapsed time 0 (with a five-character
target completed, cursor 5) the WPM computation reaches its division with a
zero denominator — the elapsed-time denominator is not guarded. -/
theorem C5_wpm_division_unguarded_counterexample :
    wpmComputation 5 0 = none := by
  unfold wpmComputation fdiv
  norm_num

theorem calcLoop_eq (target typed : List Nat) (n : Nat) :
    calcLoop target typed n
      = ((List.range n).countP (fun i => typed.getD i 0 == target.getD i 0),
         (List.range n).countP (fun i => !(typed.getD i 0 == target.getD i 0))) := by
  induction n with
  | zero => rfl
  | succ n ih =>
    unfold calcLoop at ih ⊢
    rw [List.range_succ, List.foldl_append, ih, List.countP_append, List.countP_append]
    simp only [List.foldl_cons, List.foldl_nil, List.countP_cons, List.countP_nil]
    by_cases h : typed.getD n 0 = target.getD n 0
    · have hb : (typed.getD n 0 == target.getD n 0) = true := beq_iff_eq.mpr h
      rw [if_pos h, hb]
      simp
    · have hb : (typed.getD n 0 == target.getD n 0) = false := beq_eq_false_iff_ne.mpr h
      rw [if_neg h, hb]
      simp

theorem ite_lt_eq_min (a b : Nat) : (if a < b then a else b) = min a b := by
  rcases Nat.lt_or_ge a b with h | h
  · rw [if_pos h, Nat.min_eq_left (le_of_lt h)]
  · rw [if_neg (not_lt.mpr h), Nat.min_eq_right h]

theorem ite_sub_eq_sub (a b : Nat) : (if a < b then b - a else 0) = b - a := by
  split_ifs with h <;> omega

/-- C3: the Accuracy Scorer counts a position below both lengths as correct
iff the characters agree and otherwise mistyped, counts the length shortfall
as missed and the excess as extra, and returns
100 * (1 - (mistyped + missed + extra)/len(target)) clamped below at 0, with
accuracy 0 for an empty target; the spec's concrete examples evaluate as
stated ("hello"/"hello" = 100 with zero counts, "hello"/"" = 0, empty target
= 0 for any typed, "cat"/"cats" has extra 1 and accuracy 100 * (1 - 1/3)). -/
theorem C3_accuracy_scorer_matches_spec :
    (∀ target typed : List Nat,
      (calculateAccuracy target typed).correct = specCorrect target typed ∧
      (calculateAccuracy target typed).mistyped = specMistyped target typed ∧
      (calculateAccuracy target typed).missed = specMissed target typed ∧
      (calculateAccuracy target typed).extra = specExtra target typed ∧
      (calculateAccuracy target typed).accuracy = specAccuracy target typed) ∧
    ((calculateAccuracy [104, 101, 108, 108, 111] [104, 101, 108, 108, 111]).accuracy = 100 ∧
     (calculateAccuracy [104, 101, 108, 108, 111] [104, 101, 108, 108, 111]).mistyped = 0 ∧
     (calculateAccuracy [104, 101, 108, 108, 111] [104, 101, 108, 108, 111]).missed = 0 ∧
     (calculateAccuracy [104, 101, 108, 108, 111] [104, 101, 108, 108, 111]).extra = 0) ∧
    (calculateAccuracy [104, 101, 108, 108, 111] []).accuracy = 0 ∧
    (∀ typed : List Nat, (calculateAccuracy [] typed).accuracy = 0) ∧
    ((calculateAccuracy [99, 97, 116] [99, 97, 116, 115]).extra = 1 ∧
     (calculateAccuracy [99, 97, 116] [99, 97, 116, 115]).accuracy = 100 * (1 - 1 / 3)) := by
  refine ⟨?_, ?_, ?_, fun typed => by simp [calculateAccuracy], ?_⟩
  · intro target typed
    have hloop := calcLoop_eq target typed (min target.length typed.length)
    have hmin := ite_lt_eq_min target.length typed.length
    have hmissed := ite_sub_eq_sub typed.length target.length
    have hextra := ite_sub_eq_sub target.length typed.length
    refine ⟨?_, ?_, ?_, ?_, ?_⟩
    · show (calcLoop target typed
          (if target.length < typed.length then target.length else typed.length)).1
        = specCorrect target typed
      rw [hmin, hloop]
      rfl
    · show (calcLoop target typed
          (if target.length < typed.length then target.length else typed.length)).2
        = specMistyped target typed
      rw [hmin, hloop]
      rfl
    · exact hmissed
    · exact hextra
    · show (if (if target.length = 0 then (0 : Rat)
          else 100 * (1 -
            (((calcLoop target typed
                  (if target.length < typed.length then target.length else typed.length)).2 +
                (if typed.length < target.length then target.length - typed.length else 0) +
                (if target.length < typed.length then typed.length - target.length else 0)
                : Nat) : Rat) /
              (target.length : Rat))) < 0 then (0 : Rat)
          else if target.length = 0 then (0 : Rat)
          else 100 * (1 -
            (((calcLoop target typed
                  (if target.length < typed.length then target.length else typed.length)).2 +
                (if typed.length < target.length then target.length - typed.length else 0) +
                (if target.length < typed.length then typed.length - target.length else 0)
                : Nat) : Rat) /
              (target.length : Rat)))
        = specAccuracy target typed
      have hcast : ((calcLoop target typed
              (if target.length < typed.length then target.length else typed.length)).2 +
            (if typed.length < target.length then target.length - typed.length else 0) +
            (if target.length < typed.length then typed.length - target.length else 0) : Nat)
          = specMistyped target typed + specMissed target typed + specExtra target typed := by
        rw [hmin, hloop, hmissed, hextra]
        rfl
      rw [hcast]
      by_cases h0 : target.length = 0
      · simp [specAccuracy, h0]
      · rw [if_neg h0]
        rw [specAccuracy, if_neg h0]
        rcases lt_or_ge (100 * (1 -
            ((specMistyped target typed + specMissed target typed + specExtra target typed
              : Nat) : Rat) / (target.length : Rat))) 0 with hlt | hge
        · rw [if_pos hlt, max_eq_left (le_of_lt hlt)]
        · rw [if_neg (not_lt.mpr hge), max_eq_right hge]
  · refine ⟨?_, by decide, by decide, by decide⟩
    show (calculateAccuracy [104, 101, 108, 108, 111] [104, 101, 108, 108, 111]).accuracy = 100
    norm_num [calculateAccuracy, calcLoop, List.range_succ]
  · show (calculateAccuracy [104, 101, 108, 108, 111] []).accuracy = 0
    norm_num [calculateAccuracy, calcLoop, List.range_succ]
  · refine ⟨by decide, ?_⟩
    show (calculateAccuracy [99, 97, 116] [99, 97, 116, 115]).accuracy = 100 * (1 - 1 / 3)
    norm_num [calculateAccuracy, calcLoop, List.range_succ]

/-- C7: for every pair of strings the Accuracy Scorer's returned accuracy lies
in the closed interval [0, 100]. -/
theorem C7_accuracy_in_unit_range (target typed : List Nat) :
    0 ≤ (calculateAccuracy target typed).accuracy ∧
    (calculateAccuracy target typed).accuracy ≤ 100 := by
  unfold calculateAccuracy
  dsimp only
  by_cases h0 : target.length = 0
  · rw [if_pos h0]
    norm_num
  · rw [if_neg h0]
    set e : Nat := (calcLoop target typed
        (if target.length < typed.length then target.length else typed.length)).2 +
      (if typed.length < target.length then target.length - typed.length else 0) +
      (if target.length < typed.length then typed.length - target.length else 0) with he
    have hnn : (0 : Rat) ≤ (e : Rat) / (target.length : Rat) := by positivity
    have hub : 100 * (1 - (e : Rat) / (target.length : Rat)) ≤ 100 := by linarith
    rcases lt_or_ge (100 * (1 - (e : Rat) / (target.length : Rat))) 0 with hlt | hge
    · rw [if_pos hlt]
      norm_num
    · rw [if_neg (not_lt.mpr hge)]
      exact ⟨hge, hub⟩

end LowkeyType
